import Mathlib

/-!
# Chat-Book real-time core: a shallow embedding

This file embeds the WebSocket presence / message-routing core of the
Chat-Book repository (the `registerRoutes` WebSocket section, the
`DatabaseStorage` message operations, and the zod `messageSchema`) as
executable Lean definitions, and proves the specified properties about
them.

Connections are identified by natural numbers (standing for the identity
of the `WebSocket` object); the JS `Map` `connectedUsers` is embedded as
an insertion-ordered association list with unique keys, exactly mirroring
`Map.set` / `Map.get` / `Map.delete` / iteration-order semantics.
Timestamps are a logical clock `now` in the store, incremented at each
durable write (`new Date()` at distinct instants).
-/

/-- A persisted row of the `messages` table (`shared/schema.ts`). -/
structure StoredMessage where
  id : Nat
  senderId : String
  receiverId : String
  content : String
  messageType : String
  imageUrl : Option String
  isRead : Bool
  createdAt : Nat
deriving DecidableEq, Repr

/-- A row of the `users` table restricted to the fields the core writes
(`updateUserOnlineStatus` touches `isOnline`, `lastSeen`, `updatedAt`). -/
structure UserRow where
  isOnline : Bool
  lastSeen : Nat
deriving DecidableEq, Repr

/-- The durable store (`DatabaseStorage`): messages table, users table,
an id counter for `gen_random_uuid()`, and a logical clock for
`defaultNow()` / `new Date()`. -/
structure StoreState where
  messages : List StoredMessage
  users : List (String × UserRow)
  nextId : Nat
  now : Nat
deriving DecidableEq, Repr

/-- `DatabaseStorage.updateUserOnlineStatus(id, isOnline)`: SQL UPDATE of
the row with that id, setting `isOnline` and `lastSeen = new Date()`. -/
def updateUserOnlineStatus (st : StoreState) (id : String) (b : Bool) : StoreState :=
  { st with
      users := st.users.map (fun p => if p.1 = id then (p.1, ⟨b, st.now⟩) else p),
      now := st.now + 1 }

/-- A chat payload that passed `messageSchema.parse` (validated). -/
structure ChatPayload where
  senderId : String
  receiverId : String
  content : String
  messageType : String
  imageUrl : Option String
deriving DecidableEq, Repr

/-- The row `DatabaseStorage.createMessage` inserts for payload `p` in
store state `st`: the db assigns `id`, `createdAt`, and `isRead = false`
(column defaults). -/
def mkMessage (st : StoreState) (p : ChatPayload) : StoredMessage :=
  { id := st.nextId, senderId := p.senderId, receiverId := p.receiverId,
    content := p.content, messageType := p.messageType, imageUrl := p.imageUrl,
    isRead := false, createdAt := st.now }

/-- `DatabaseStorage.createMessage(message)`: INSERT returning the new row. -/
def createMessage (st : StoreState) (p : ChatPayload) : StoredMessage × StoreState :=
  (mkMessage st p,
   { st with messages := st.messages ++ [mkMessage st p],
             nextId := st.nextId + 1, now := st.now + 1 })

/-- Raw inbound chat data (`message.data`), before `messageSchema.parse`. -/
structure RawChatPayload where
  senderId : String
  receiverId : String
  content : String
  messageType : Option String
  imageUrl : Option String
deriving DecidableEq, Repr

/-- `messageSchema.parse`: `content` must have length 1..1000,
`messageType` must be `"text"` or `"image"` when present and defaults to
`"text"`; `imageUrl` is optional. Returns the validated payload or fails. -/
def validateChat (raw : RawChatPayload) : Option ChatPayload :=
  if 1 ≤ raw.content.length ∧ raw.content.length ≤ 1000 then
    match raw.messageType with
    | none =>
        some { senderId := raw.senderId, receiverId := raw.receiverId,
               content := raw.content, messageType := "text",
               imageUrl := raw.imageUrl }
    | some mt =>
        if mt = "text" ∨ mt = "image" then
          some { senderId := raw.senderId, receiverId := raw.receiverId,
                 content := raw.content, messageType := mt,
                 imageUrl := raw.imageUrl }
        else none
  else none

/-- `JS Map.set`: replace in place when the key exists (keeping its
iteration position), else append. -/
def mapSet : List (String × Nat) → String → Nat → List (String × Nat)
  | [], k, v => [(k, v)]
  | (k', v') :: rest, k, v =>
      if k' = k then (k, v) :: rest else (k', v') :: mapSet rest k v

/-- `JS Map.get`. -/
def mapGet : List (String × Nat) → String → Option Nat
  | [], _ => none
  | (k', v') :: rest, k => if k' = k then some v' else mapGet rest k

/-- `JS Map.delete`. -/
def mapDelete : List (String × Nat) → String → List (String × Nat)
  | [], _ => []
  | (k', v') :: rest, k => if k' = k then rest else (k', v') :: mapDelete rest k

/-- The `ws.on('close')` loop: first entry (in insertion order) whose
value is the closing connection. -/
def findConnUser : List (String × Nat) → Nat → Option String
  | [], _ => none
  | (k', v') :: rest, c => if v' = c then some k' else findConnUser rest c

/-- Server→client event payloads sent over the WebSocket. -/
inductive ServerMsg where
  | user_online (userId : String)
  | user_offline (userId : String)
  | user_status_update (userId : String) (lastSeen : Nat) (isOnline : Bool)
  | new_message (m : StoredMessage)
  | message_sent (m : StoredMessage)
  | typing (senderId : String) (isTyping : Bool)
deriving DecidableEq, Repr

/-- Observable side effects of one dispatch: a `ws.send` to a connection,
the invocation of `broadcastToAll`, or a committed durable-store write. -/
inductive Effect where
  | sent (conn : Nat) (p : ServerMsg)
  | broadcast (p : ServerMsg)
  | storeSetOnline (userId : String) (isOnline : Bool)
  | storeCreateMessage (m : StoredMessage)
deriving DecidableEq, Repr

/-- Client→server events (`message.type` dispatch). `unknown` stands for
any unrecognized type or unparseable frame. -/
inductive ClientMsg where
  | auth (userId : String)
  | chat_message (data : RawChatPayload)
  | update_last_seen (userId : String)
  | typing (senderId : String) (receiverId : String) (isTyping : Bool)
  | unknown
deriving DecidableEq, Repr

/-- Whole-server state: the `connectedUsers` map, the set of connections
whose transport `readyState` is OPEN, and the durable store. -/
structure ServerState where
  connectedUsers : List (String × Nat)
  openConns : List Nat
  store : StoreState
deriving DecidableEq, Repr

/-- `broadcastToAll(message)`: iterate `connectedUsers`, sending to each
connection whose `readyState` is OPEN. The leading `Effect.broadcast`
records the invocation itself. -/
def broadcastToAll (st : ServerState) (m : ServerMsg) : List Effect :=
  Effect.broadcast m ::
    st.connectedUsers.filterMap
      (fun p => if p.2 ∈ st.openConns then some (Effect.sent p.2 m) else none)

/-- Is the receiver bound in the registry with an OPEN transport? -/
def reachable (st : ServerState) (userId : String) : Bool :=
  match mapGet st.connectedUsers userId with
  | some rc => rc ∈ st.openConns
  | none => false

/-- The `ws.on('message')` handler of `registerRoutes`, dispatching on
`message.type`, for a frame arriving on connection `c`. `storeOk` models
whether the (at most one) durable-store write performed by this dispatch
succeeds; when it fails the thrown error is swallowed by the handler's
`catch`, so everything sequenced before the `await` has happened and
everything after it is skipped. JS truthiness of `userId` is modelled as
`userId ≠ ""`. -/
def handleMessage (st : ServerState) (c : Nat) (msg : ClientMsg) (storeOk : Bool) :
    ServerState × List Effect :=
  match msg with
  | .auth userId =>
      if userId ≠ "" then
        let st1 := { st with connectedUsers := mapSet st.connectedUsers userId c }
        if storeOk then
          let st2 := { st1 with store := updateUserOnlineStatus st1.store userId true }
          (st2, Effect.storeSetOnline userId true ::
                  broadcastToAll st2 (.user_online userId))
        else (st1, [])
      else (st, [])
  | .chat_message raw =>
      match validateChat raw with
      | none => (st, [])
      | some p =>
          if storeOk then
            let m := (createMessage st.store p).1
            let st1 := { st with store := (createMessage st.store p).2 }
            let recipientEffs :=
              match mapGet st1.connectedUsers p.receiverId with
              | some rc =>
                  if rc ∈ st1.openConns then [Effect.sent rc (.new_message m)] else []
              | none => []
            let senderEffs :=
              if c ∈ st1.openConns then [Effect.sent c (.message_sent m)] else []
            (st1, Effect.storeCreateMessage m :: (recipientEffs ++ senderEffs))
          else (st, [])
  | .update_last_seen userId =>
      if userId ≠ "" then
        if storeOk then
          let st1 := { st with store := updateUserOnlineStatus st.store userId true }
          (st1, Effect.storeSetOnline userId true ::
                  broadcastToAll st1 (.user_status_update userId st.store.now true))
        else (st, [])
      else (st, [])
  | .typing senderId receiverId isTyping =>
      (st, match mapGet st.connectedUsers receiverId with
           | some rc =>
               if rc ∈ st.openConns then [Effect.sent rc (.typing senderId isTyping)]
               else []
           | none => [])
  | .unknown => (st, [])

/-- The `ws.on('close')` handler for connection `c`: find the first
`(userId, ws)` entry with `ws = c`, delete it, mark the user offline in
the store, and broadcast `user_offline`; do nothing when no entry
matches. -/
def handleClose (st : ServerState) (c : Nat) (storeOk : Bool) :
    ServerState × List Effect :=
  match findConnUser st.connectedUsers c with
  | none => (st, [])
  | some userId =>
      let st1 := { st with connectedUsers := mapDelete st.connectedUsers userId }
      if storeOk then
        let st2 := { st1 with store := updateUserOnlineStatus st1.store userId false }
        (st2, Effect.storeSetOnline userId false ::
                broadcastToAll st2 (.user_offline userId))
      else (st1, [])

/-- `DatabaseStorage.getMessagesBetweenUsers`'s WHERE clause: the message
is between `a` and `b`, in either direction. -/
def betweenPred (a b : String) (m : StoredMessage) : Bool :=
  (m.senderId = a && m.receiverId = b) || (m.senderId = b && m.receiverId = a)

/-- The ORDER BY key: ascending `createdAt`. -/
def msgLE (m₁ m₂ : StoredMessage) : Prop := m₁.createdAt ≤ m₂.createdAt

instance : DecidableRel msgLE := fun m₁ m₂ => Nat.decLe m₁.createdAt m₂.createdAt

instance : IsTotal StoredMessage msgLE :=
  ⟨fun m₁ m₂ => Nat.le_total m₁.createdAt m₂.createdAt⟩

instance : IsTrans StoredMessage msgLE :=
  ⟨fun _ _ _ h₁ h₂ => Nat.le_trans h₁ h₂⟩

/-- `DatabaseStorage.getMessagesBetweenUsers(userId1, userId2, limit)`:
SELECT the messages between the two users, ORDER BY `createdAt` ASC,
LIMIT `limit`. -/
def getMessagesBetweenUsersLimit (st : StoreState) (a b : String) (limit : Nat) :
    List StoredMessage :=
  (List.insertionSort msgLE (st.messages.filter (betweenPred a b))).take limit

/-- The two-argument form, with the declared default `limit = 50`. -/
def getMessagesBetweenUsers (st : StoreState) (a b : String) : List StoredMessage :=
  getMessagesBetweenUsersLimit st a b 50

/-- `DatabaseStorage.markMessagesAsRead(senderId, receiverId)`: SQL
UPDATE setting `isRead = true` on every message with that sender and
receiver that is currently unread. -/
def markMessagesAsRead (st : StoreState) (senderId receiverId : String) : StoreState :=
  { st with
      messages := st.messages.map (fun m =>
        if m.senderId = senderId ∧ m.receiverId = receiverId ∧ m.isRead = false
        then { m with isRead := true } else m) }

/-- Number of occurrences of a given effect in an effect trace. -/
def countEff (effs : List Effect) (e : Effect) : Nat :=
  (effs.filter (fun e' => e' = e)).length

/-- Is this effect a durable message insertion? -/
def isCreate : Effect → Bool
  | .storeCreateMessage _ => true
  | _ => false

/-- Number of durable message insertions in an effect trace. -/
def countCreates (effs : List Effect) : Nat :=
  (effs.filter isCreate).length

/-- Is this effect the delivery of a `new_message` event? -/
def isNewMessageSend : Effect → Bool
  | .sent _ (.new_message _) => true
  | _ => false

/-- Number of `new_message` deliveries in an effect trace. -/
def countNewMessageSends (effs : List Effect) : Nat :=
  (effs.filter isNewMessageSend).length

/-- `k` consecutive auth handshakes for `u` on connection `c`, with all
store writes succeeding; returns the final state and the concatenated
effect trace. -/
def runAuths : ServerState → Nat → String → Nat → ServerState × List Effect
  | st, _, _, 0 => (st, [])
  | st, c, u, Nat.succ k =>
      let r := handleMessage st c (.auth u) true
      let rest := runAuths r.1 c u k
      (rest.1, r.2 ++ rest.2)

/-- The presence scenario of §8: starting with an empty registry, `k`
auth handshakes for `u` on connection `c`, then that connection's close.
Returns the (state, effects) after the auths and after the close. -/
def authCloseScenario (store0 : StoreState) (conns : List Nat) (c : Nat)
    (u : String) (k : Nat) : (ServerState × List Effect) × (ServerState × List Effect) :=
  let ra := runAuths ⟨[], conns, store0⟩ c u k
  (ra, handleClose ra.1 c true)

/-! ## Basic lemmas about the registry map -/

theorem mapGet_mapSet_self (l : List (String × Nat)) (k : String) (v : Nat) :
    mapGet (mapSet l k v) k = some v := by
  induction l with
  | nil => simp [mapSet, mapGet]
  | cons p rest ih =>
      by_cases h : p.1 = k
      · simp [mapSet, mapGet, h]
      · simp [mapSet, mapGet, h, ih]

theorem mapGet_mapSet_ne (l : List (String × Nat)) (k k' : String) (v : Nat)
    (h : k' ≠ k) : mapGet (mapSet l k v) k' = mapGet l k' := by
  induction l with
  | nil => simp [mapSet, mapGet, Ne.symm h]
  | cons p rest ih =>
      by_cases hp : p.1 = k
      · simp only [mapSet, hp, if_true]
        have hk : ¬(k = k') := Ne.symm h
        have hp' : ¬(p.1 = k') := by rw [hp]; exact hk
        simp [mapGet, hk, hp']
      · simp only [mapSet, hp, if_false]
        by_cases hp' : p.1 = k'
        · simp [mapGet, hp']
        · simp [mapGet, hp', ih]

theorem mem_mapSet (l : List (String × Nat)) (k : String) (v : Nat)
    (hnd : l.Pairwise (fun p q => p.1 ≠ q.1))
    (p : String × Nat) (hp : p ∈ mapSet l k v) :
    p = (k, v) ∨ (p ∈ l ∧ p.1 ≠ k) := by
  induction l with
  | nil => simp [mapSet] at hp; simp [hp]
  | cons q rest ih =>
      rw [List.pairwise_cons] at hnd
      by_cases hq : q.1 = k
      · simp only [mapSet, hq, if_true, List.mem_cons] at hp
        rcases hp with h | h
        · exact Or.inl h
        · refine Or.inr ⟨List.mem_cons_of_mem _ h, ?_⟩
          intro hpk
          exact hnd.1 p h (hq.trans hpk.symm)
      · simp only [mapSet, hq, if_false, List.mem_cons] at hp
        rcases hp with h | h
        · subst h; exact Or.inr ⟨List.mem_cons_self _ _, hq⟩
        · rcases ih hnd.2 h with h' | h'
          · exact Or.inl h'
          · exact Or.inr ⟨List.mem_cons_of_mem _ h'.1, h'.2⟩

theorem findConnUser_eq_none (l : List (String × Nat)) (c : Nat)
    (h : ∀ p ∈ l, p.2 ≠ c) : findConnUser l c = none := by
  induction l with
  | nil => rfl
  | cons p rest ih =>
      have hp := h p (List.mem_cons_self _ _)
      simp only [findConnUser, hp, if_false]
      exact ih (fun q hq => h q (List.mem_cons_of_mem _ hq))

/-! ## Counting lemmas for effect traces -/

theorem countEff_cons (x : Effect) (l : List Effect) (e : Effect) :
    countEff (x :: l) e = (if x = e then 1 else 0) + countEff l e := by
  unfold countEff
  rw [List.filter_cons]
  by_cases h : x = e
  · simp [h, Nat.add_comm]
  · simp [h]

theorem countEff_append (l₁ l₂ : List Effect) (e : Effect) :
    countEff (l₁ ++ l₂) e = countEff l₁ e + countEff l₂ e := by
  unfold countEff
  rw [List.filter_append, List.length_append]

theorem countEff_sendAll (l : List (String × Nat)) (conns : List Nat)
    (m : ServerMsg) (e : Effect) (hs : ∀ c, e ≠ Effect.sent c m) :
    countEff (l.filterMap
      (fun p => if p.2 ∈ conns then some (Effect.sent p.2 m) else none)) e = 0 := by
  induction l with
  | nil => rfl
  | cons p rest ih =>
      rw [List.filterMap_cons]
      by_cases h : p.2 ∈ conns
      · rw [if_pos h, countEff_cons, ih, if_neg (Ne.symm (hs p.2))]
      · rw [if_neg h]; exact ih

theorem countEff_broadcastToAll (st : ServerState) (m : ServerMsg) (e : Effect)
    (hb : e ≠ Effect.broadcast m) (hs : ∀ c, e ≠ Effect.sent c m) :
    countEff (broadcastToAll st m) e = 0 := by
  unfold broadcastToAll
  rw [countEff_cons, if_neg (Ne.symm hb), countEff_sendAll _ _ _ _ hs]

/-! ## C9: store failure during auth is contained -/

/-- C9: if the durable presence write issued by an auth handshake for
identity `u` fails, the failure is contained: the registry binding
`u ↦ c` created by the handshake stays in place (not rolled back), no
event at all is emitted (in particular no `user_online` broadcast and no
committed store write), the durable store is unchanged, and every other
identity's registry entry is untouched. -/
theorem auth_store_failure_contained (st : ServerState) (c : Nat) (u : String)
    (hu : u ≠ "") :
    (handleMessage st c (.auth u) false).1.connectedUsers
        = mapSet st.connectedUsers u c ∧
    mapGet (handleMessage st c (.auth u) false).1.connectedUsers u = some c ∧
    (handleMessage st c (.auth u) false).2 = [] ∧
    (handleMessage st c (.auth u) false).1.store = st.store ∧
    (handleMessage st c (.auth u) false).1.openConns = st.openConns ∧
    (∀ v, v ≠ u → mapGet (handleMessage st c (.auth u) false).1.connectedUsers v
        = mapGet st.connectedUsers v) := by
  refine ⟨?_, ?_, ?_, ?_, ?_, ?_⟩ <;>
    simp only [handleMessage, hu, ne_eq, not_false_iff, if_true,
      Bool.false_eq_true, if_false]
  · exact mapGet_mapSet_self _ _ _
  · intro v hv
    exact mapGet_mapSet_ne _ _ _ _ hv

/-- Witness for `auth_store_failure_contained` at a concrete state: one
other user "V" bound on connection 5, failing auth of "U" on
connection 0. -/
theorem auth_store_failure_contained_witness :
    mapGet ((handleMessage ⟨[("V", 5)], [0, 5], ⟨[], [], 0, 0⟩⟩ 0
        (ClientMsg.auth "U") false).1).connectedUsers "U" = some 0 ∧
    (handleMessage ⟨[("V", 5)], [0, 5], ⟨[], [], 0, 0⟩⟩ 0
        (ClientMsg.auth "U") false).2 = [] ∧
    mapGet ((handleMessage ⟨[("V", 5)], [0, 5], ⟨[], [], 0, 0⟩⟩ 0
        (ClientMsg.auth "U") false).1).connectedUsers "V" = some 5 :=
  ⟨(auth_store_failure_contained ⟨[("V", 5)], [0, 5], ⟨[], [], 0, 0⟩⟩ 0 "U"
      (by decide)).2.1,
   (auth_store_failure_contained ⟨[("V", 5)], [0, 5], ⟨[], [], 0, 0⟩⟩ 0 "U"
      (by decide)).2.2.1,
   by
     rw [(auth_store_failure_contained ⟨[("V", 5)], [0, 5], ⟨[], [], 0, 0⟩⟩ 0 "U"
       (by decide)).2.2.2.2.2 "V" (by decide)]
     decide⟩

/-! ## C1: there is no per-connection authentication gate -/

/-- C1 counterexample: the `ws.on('message')` handler never checks
whether the sending connection has completed an auth handshake.
Connection 0 below has an empty registry (it never sent auth), yet its
`chat_message` is persisted (one store row, one `storeCreateMessage`
effect, a `message_sent` confirmation back to it), its `typing` event is
forwarded to the receiver, and its `update_last_seen` performs a durable
store write — refuting the claim that every non-auth event received
before an auth handshake is ignored. -/
theorem unauth_event_not_ignored :
    (handleMessage ⟨[], [0], ⟨[], [], 0, 0⟩⟩ 0
        (ClientMsg.chat_message ⟨"A", "B", "hi", none, none⟩)
        true).1.store.messages.length = 1 ∧
    countCreates (handleMessage ⟨[], [0], ⟨[], [], 0, 0⟩⟩ 0
        (ClientMsg.chat_message ⟨"A", "B", "hi", none, none⟩) true).2 = 1 ∧
    (handleMessage ⟨[("B", 1)], [0, 1], ⟨[], [], 0, 0⟩⟩ 0
        (ClientMsg.typing "A" "B" true) true).2
      = [Effect.sent 1 (ServerMsg.typing "A" true)] ∧
    countEff (handleMessage ⟨[], [0], ⟨[], [("A", ⟨false, 0⟩)], 0, 0⟩⟩ 0
        (ClientMsg.update_last_seen "A") true).2
      (Effect.storeSetOnline "A" true) = 1 := by
  decide

/-- C1 amended: inbound-event processing does not depend on the sending
connection's authentication status. Even when connection `c` has never
completed an auth handshake (it is bound to no identity in the registry),
a valid `chat_message` arriving on it is persisted and confirmed to `c`,
a `typing` event on it is relayed to a reachable receiver, and an
`update_last_seen` on it performs the durable presence write. -/
theorem unauth_events_processed_ungated (st : ServerState) (c : Nat)
    (raw : RawChatPayload) (p : ChatPayload)
    (hunauth : findConnUser st.connectedUsers c = none)
    (hv : validateChat raw = some p) :
    (handleMessage st c (.chat_message raw) true).1.store.messages
        = st.store.messages ++ [mkMessage st.store p] ∧
    (c ∈ st.openConns → Effect.sent c (.message_sent (mkMessage st.store p))
        ∈ (handleMessage st c (.chat_message raw) true).2) ∧
    (∀ s r t rc, mapGet st.connectedUsers r = some rc → rc ∈ st.openConns →
        (handleMessage st c (.typing s r t) true).2
          = [Effect.sent rc (.typing s t)]) ∧
    (∀ u, u ≠ "" → countEff (handleMessage st c (.update_last_seen u) true).2
        (.storeSetOnline u true) = 1) := by
  refine ⟨?_, ?_, ?_, ?_⟩
  · simp [handleMessage, hv, createMessage]
  · intro hopen
    simp only [handleMessage, hv, createMessage, if_pos hopen]
    simp
  · intro s r t rc hget hopen
    simp [handleMessage, hget, hopen]
  · intro u hu
    simp only [handleMessage, hu, ne_eq, not_false_iff, if_true]
    rw [countEff_cons, if_pos rfl,
      countEff_broadcastToAll _ _ _ (by simp) (by simp)]

/-- Witness for `unauth_events_processed_ungated`: connection 0 is
unauthenticated (only "B" is bound, on connection 1), yet its valid
`chat_message` is appended to the store. -/
theorem unauth_events_processed_ungated_witness :
    (handleMessage ⟨[("B", 1)], [0, 1], ⟨[], [], 0, 0⟩⟩ 0
        (ClientMsg.chat_message ⟨"A", "B", "hi", none, none⟩)
        true).1.store.messages
      = [] ++ [mkMessage ⟨[], [], 0, 0⟩ ⟨"A", "B", "hi", "text", none⟩] :=
  (unauth_events_processed_ungated ⟨[("B", 1)], [0, 1], ⟨[], [], 0, 0⟩⟩ 0
    ⟨"A", "B", "hi", none, none⟩ ⟨"A", "B", "hi", "text", none⟩
    (by decide) (by decide)).1

/-! ## C8: the typing relay is transient and best-effort -/

/-- C8: a `typing` event leaves the entire server state (registry, open
set, durable store) unchanged; when the receiver is bound with an OPEN
transport the relay emits exactly one event, `typing {senderId,
isTyping}` to that connection; when the receiver is unreachable it emits
nothing at all; and in every case the trace contains no durable-store
effect. -/
theorem typing_relay_transient (st : ServerState) (c : Nat) (s r : String)
    (t : Bool) (ok : Bool) :
    (handleMessage st c (.typing s r t) ok).1 = st ∧
    (∀ rc, mapGet st.connectedUsers r = some rc → rc ∈ st.openConns →
        (handleMessage st c (.typing s r t) ok).2
          = [Effect.sent rc (.typing s t)]) ∧
    (reachable st r = false → (handleMessage st c (.typing s r t) ok).2 = []) ∧
    (∀ e ∈ (handleMessage st c (.typing s r t) ok).2,
        (∀ u b, e ≠ Effect.storeSetOnline u b) ∧
        (∀ m, e ≠ Effect.storeCreateMessage m)) := by
  refine ⟨rfl, ?_, ?_, ?_⟩
  · intro rc hget hopen
    simp [handleMessage, hget, hopen]
  · intro hunreach
    unfold reachable at hunreach
    simp only [handleMessage]
    cases hget : mapGet st.connectedUsers r with
    | none => rfl
    | some rc =>
        rw [hget] at hunreach
        simp only [decide_eq_false_iff_not] at hunreach
        simp [hunreach]
  · intro e he
    simp only [handleMessage] at he
    cases hget : mapGet st.connectedUsers r with
    | none => rw [hget] at he; simp at he
    | some rc =>
        rw [hget] at he
        by_cases hopen : rc ∈ st.openConns
        · simp only [hopen, if_true] at he
          simp only [List.mem_singleton] at he
          subst he
          exact ⟨fun u b h => Effect.noConfusion h, fun m h => Effect.noConfusion h⟩
        · simp [hopen] at he

/-- Witness for `typing_relay_transient`: receiver "B" bound on open
connection 1 receives exactly the forwarded typing event. -/
theorem typing_relay_transient_witness :
    (handleMessage ⟨[("B", 1)], [0, 1], ⟨[], [], 0, 0⟩⟩ 0
        (ClientMsg.typing "A" "B" true) true).2
      = [Effect.sent 1 (ServerMsg.typing "A" true)] :=
  (typing_relay_transient ⟨[("B", 1)], [0, 1], ⟨[], [], 0, 0⟩⟩ 0 "A" "B"
    true true).2.1 1 (by decide) (by decide)

/-! ## C10: closing a superseded connection has no side effects -/

/-- C10: when identity `u` is bound to connection `c₁` and a later auth
handshake rebinds `u` to a different connection `c₂` (the registry entry
is replaced, `c₁` is not closed), a subsequent close of the superseded
connection `c₁` is a complete no-op: `u` stays bound to `c₂`, the state
(including the durable store) is unchanged, and no effect — in
particular no offline store write and no `user_offline` broadcast — is
produced. The registry, built solely through `Map.set`/`Map.delete`, has
pairwise-distinct keys, and `c₁` backs no identity other than `u`. -/
theorem superseded_close_no_effects (st : ServerState) (u : String) (c₁ c₂ : Nat)
    (hu : u ≠ "") (hne : c₂ ≠ c₁)
    (hnd : st.connectedUsers.Pairwise (fun p q => p.1 ≠ q.1))
    (hb : mapGet st.connectedUsers u = some c₁)
    (honly : ∀ p ∈ st.connectedUsers, p.2 = c₁ → p.1 = u) :
    mapGet (handleMessage st c₂ (.auth u) true).1.connectedUsers u = some c₂ ∧
    handleClose (handleMessage st c₂ (.auth u) true).1 c₁ true
      = ((handleMessage st c₂ (.auth u) true).1, []) := by
  have hcu : (handleMessage st c₂ (.auth u) true).1.connectedUsers
      = mapSet st.connectedUsers u c₂ := by
    simp [handleMessage, hu, updateUserOnlineStatus]
  have hnovalue : ∀ p ∈ mapSet st.connectedUsers u c₂, p.2 ≠ c₁ := by
    intro p hp
    rcases mem_mapSet st.connectedUsers u c₂ hnd p hp with h | h
    · rw [h]; exact hne
    · intro hv
      exact h.2 (honly p h.1 hv)
  have hfind : findConnUser (handleMessage st c₂ (.auth u) true).1.connectedUsers c₁
      = none := by
    rw [hcu]
    exact findConnUser_eq_none _ _ hnovalue
  refine ⟨?_, ?_⟩
  · rw [hcu]
    exact mapGet_mapSet_self _ _ _
  · unfold handleClose
    rw [hfind]

/-- Witness for `superseded_close_no_effects`: "U" bound on connection 1,
re-authenticated on connection 2; closing connection 1 afterwards leaves
"U" bound to 2 and produces no effects. -/
theorem superseded_close_no_effects_witness :
    mapGet (handleMessage ⟨[("U", 1)], [1, 2], ⟨[], [], 0, 0⟩⟩ 2
        (ClientMsg.auth "U") true).1.connectedUsers "U" = some 2 ∧
    handleClose (handleMessage ⟨[("U", 1)], [1, 2], ⟨[], [], 0, 0⟩⟩ 2
        (ClientMsg.auth "U") true).1 1 true
      = ((handleMessage ⟨[("U", 1)], [1, 2], ⟨[], [], 0, 0⟩⟩ 2
          (ClientMsg.auth "U") true).1, []) :=
  superseded_close_no_effects ⟨[("U", 1)], [1, 2], ⟨[], [], 0, 0⟩⟩ "U" 1 2
    (by decide) (by decide) (by simp) (by decide)
    (fun p hp _ => by simp at hp; rw [hp])

/-! ## C3: routing persists exactly once and always confirms the sender -/

/-- C3: for every chat payload passing validation (and a successful
store write), routing appends exactly one message to the store — the row
`mkMessage st.store p`, which has `isRead = false` and `createdAt`
assigned by the store clock — the effect trace contains exactly one
durable message insertion, and whenever the sender's connection is still
OPEN a `message_sent` event carrying that exact persisted row is sent
back to it, regardless of the receiver's reachability (the state `st` is
arbitrary). -/
theorem chat_route_persists_and_confirms (st : ServerState) (c : Nat)
    (raw : RawChatPayload) (p : ChatPayload) (hv : validateChat raw = some p) :
    (handleMessage st c (.chat_message raw) true).1.store.messages
        = st.store.messages ++ [mkMessage st.store p] ∧
    (mkMessage st.store p).isRead = false ∧
    (mkMessage st.store p).createdAt = st.store.now ∧
    countCreates (handleMessage st c (.chat_message raw) true).2 = 1 ∧
    (c ∈ st.openConns → Effect.sent c (.message_sent (mkMessage st.store p))
        ∈ (handleMessage st c (.chat_message raw) true).2) := by
  refine ⟨?_, rfl, rfl, ?_, ?_⟩
  · simp [handleMessage, hv, createMessage]
  · simp only [handleMessage, hv]
    cases hget : mapGet st.connectedUsers p.receiverId with
    | none =>
        by_cases h2 : c ∈ st.openConns <;> simp [h2, countCreates, isCreate]
    | some rc =>
        by_cases h1 : rc ∈ st.openConns <;> by_cases h2 : c ∈ st.openConns <;>
          simp [h1, h2, countCreates, isCreate]
  · intro hopen
    simp only [handleMessage, hv]
    cases hget : mapGet st.connectedUsers p.receiverId with
    | none => simp [hopen, createMessage]
    | some rc => by_cases h1 : rc ∈ st.openConns <;> simp [h1, hopen, createMessage]

/-- Witness for `chat_route_persists_and_confirms`: sender on open
connection 0, receiver "B" unreachable; the message is persisted and the
confirmation reaches the sender. -/
theorem chat_route_persists_and_confirms_witness :
    (handleMessage ⟨[], [0], ⟨[], [], 0, 0⟩⟩ 0
        (ClientMsg.chat_message ⟨"A", "B", "hi", none, none⟩)
        true).1.store.messages
      = [] ++ [mkMessage ⟨[], [], 0, 0⟩ ⟨"A", "B", "hi", "text", none⟩] ∧
    Effect.sent 0 (ServerMsg.message_sent
        (mkMessage ⟨[], [], 0, 0⟩ ⟨"A", "B", "hi", "text", none⟩))
      ∈ (handleMessage ⟨[], [0], ⟨[], [], 0, 0⟩⟩ 0
          (ClientMsg.chat_message ⟨"A", "B", "hi", none, none⟩) true).2 :=
  ⟨(chat_route_persists_and_confirms ⟨[], [0], ⟨[], [], 0, 0⟩⟩ 0
      ⟨"A", "B", "hi", none, none⟩ ⟨"A", "B", "hi", "text", none⟩ (by decide)).1,
   (chat_route_persists_and_confirms ⟨[], [0], ⟨[], [], 0, 0⟩⟩ 0
      ⟨"A", "B", "hi", none, none⟩ ⟨"A", "B", "hi", "text", none⟩
      (by decide)).2.2.2.2 (by decide)⟩

/-! ## C4: receiver delivery happens exactly when the receiver is live -/

/-- C4: for every chat payload passing validation, a `new_message` event
carrying the persisted row is delivered exactly when the receiver has a
bound connection whose transport is OPEN (then the trace holds exactly
one `new_message` delivery, to that connection); when the receiver is
unbound or its transport is not OPEN, no `new_message` delivery occurs
at all — and routing still succeeds: the message is persisted either
way. -/
theorem chat_route_receiver_delivery (st : ServerState) (c : Nat)
    (raw : RawChatPayload) (p : ChatPayload) (hv : validateChat raw = some p) :
    (∀ rc, mapGet st.connectedUsers p.receiverId = some rc →
        rc ∈ st.openConns →
        Effect.sent rc (.new_message (mkMessage st.store p))
            ∈ (handleMessage st c (.chat_message raw) true).2 ∧
        countNewMessageSends (handleMessage st c (.chat_message raw) true).2
            = 1) ∧
    (reachable st p.receiverId = false →
        countNewMessageSends (handleMessage st c (.chat_message raw) true).2
          = 0) ∧
    (handleMessage st c (.chat_message raw) true).1.store.messages.length
        = st.store.messages.length + 1 := by
  refine ⟨?_, ?_, ?_⟩
  · intro rc hget hopen
    simp only [handleMessage, hv, hget]
    constructor
    · by_cases h2 : c ∈ st.openConns <;> simp [hopen, h2, createMessage]
    · by_cases h2 : c ∈ st.openConns <;>
        simp [hopen, h2, countNewMessageSends, isNewMessageSend]
  · intro hunreach
    unfold reachable at hunreach
    simp only [handleMessage, hv]
    cases hget : mapGet st.connectedUsers p.receiverId with
    | none =>
        by_cases h2 : c ∈ st.openConns <;>
          simp [h2, countNewMessageSends, isNewMessageSend]
    | some rc =>
        rw [hget] at hunreach
        simp only [decide_eq_false_iff_not] at hunreach
        by_cases h2 : c ∈ st.openConns <;>
          simp [hunreach, h2, countNewMessageSends, isNewMessageSend]
  · simp [handleMessage, hv, createMessage]

/-- Witness for `chat_route_receiver_delivery`: receiver "B" bound on
open connection 1 receives the `new_message` event. -/
theorem chat_route_receiver_delivery_witness :
    Effect.sent 1 (ServerMsg.new_message
        (mkMessage ⟨[], [], 0, 0⟩ ⟨"A", "B", "hi", "text", none⟩))
      ∈ (handleMessage ⟨[("B", 1)], [0, 1], ⟨[], [], 0, 0⟩⟩ 0
          (ClientMsg.chat_message ⟨"A", "B", "hi", none, none⟩) true).2 :=
  ((chat_route_receiver_delivery ⟨[("B", 1)], [0, 1], ⟨[], [], 0, 0⟩⟩ 0
      ⟨"A", "B", "hi", none, none⟩ ⟨"A", "B", "hi", "text", none⟩
      (by decide)).1 1 (by decide) (by decide)).1

/-! ## C5: content-length validation bounds and failure containment -/

/-- C5: for a chat payload whose `messageType` field is well-formed
(absent, `"text"`, or `"image"`), validation succeeds exactly when the
content length is between 1 and 1000 characters — so empty content and
1001-character content are rejected, 1..1000 accepted — and on any
validation failure the dispatch is a complete no-op: the state (hence
the store) is unchanged and no effect (no persistence, no delivery to
sender or receiver) is produced. -/
theorem chat_validation_bounds (raw : RawChatPayload)
    (hmt : raw.messageType = none ∨ raw.messageType = some "text"
        ∨ raw.messageType = some "image") :
    ((validateChat raw).isSome
        ↔ 1 ≤ raw.content.length ∧ raw.content.length ≤ 1000) ∧
    (∀ st c ok, validateChat raw = none →
        handleMessage st c (.chat_message raw) ok = (st, [])) := by
  constructor
  · constructor
    · intro hs
      unfold validateChat at hs
      by_cases hlen : 1 ≤ raw.content.length ∧ raw.content.length ≤ 1000
      · exact hlen
      · rw [if_neg hlen] at hs
        simp at hs
    · intro hlen
      unfold validateChat
      rw [if_pos hlen]
      rcases hmt with h | h | h <;> rw [h] <;> simp
  · intro st c ok hnone
    simp [handleMessage, hnone]

/-- Witness for `chat_validation_bounds`: content of exactly 1000
characters is accepted, 1001 characters and the empty string are
rejected, and a rejected payload produces a no-op dispatch. -/
theorem chat_validation_bounds_witness :
    (validateChat ⟨"A", "B", String.mk (List.replicate 1000 'a'),
        none, none⟩).isSome ∧
    ¬ (validateChat ⟨"A", "B", String.mk (List.replicate 1001 'a'),
        none, none⟩).isSome ∧
    ¬ (validateChat ⟨"A", "B", "", none, none⟩).isSome ∧
    handleMessage ⟨[], [0], ⟨[], [], 0, 0⟩⟩ 0
        (ClientMsg.chat_message ⟨"A", "B", "", none, none⟩) true
      = (⟨[], [0], ⟨[], [], 0, 0⟩⟩, []) := by
  have h1000 : (String.mk (List.replicate 1000 'a')).length = 1000 := by
    rw [String.length]; exact List.length_replicate 1000 'a'
  have h1001 : (String.mk (List.replicate 1001 'a')).length = 1001 := by
    rw [String.length]; exact List.length_replicate 1001 'a'
  refine ⟨?_, ?_, ?_, ?_⟩
  · exact (chat_validation_bounds ⟨"A", "B", String.mk (List.replicate 1000 'a'),
      none, none⟩ (Or.inl rfl)).1.mpr (by rw [h1000]; exact ⟨by norm_num, by norm_num⟩)
  · intro hs
    have h := (chat_validation_bounds ⟨"A", "B", String.mk (List.replicate 1001 'a'),
      none, none⟩ (Or.inl rfl)).1.mp hs
    rw [h1001] at h
    exact absurd h.2 (by norm_num)
  · intro hs
    have h := (chat_validation_bounds ⟨"A", "B", "", none, none⟩
      (Or.inl rfl)).1.mp hs
    simp at h
  · exact (chat_validation_bounds ⟨"A", "B", "", none, none⟩
      (Or.inl rfl)).2 ⟨[], [0], ⟨[], [], 0, 0⟩⟩ 0 true (by decide)

/-! ## C2: presence broadcasts under (duplicate) auth and close -/

theorem countEff_broadcastToAll_self (st : ServerState) (m : ServerMsg) :
    countEff (broadcastToAll st m) (Effect.broadcast m) = 1 := by
  unfold broadcastToAll
  rw [countEff_cons, if_pos rfl,
    countEff_sendAll _ _ _ _ (fun c h => Effect.noConfusion h)]

theorem auth_effects_counts (st : ServerState) (c : Nat) (u : String)
    (hu : u ≠ "") :
    countEff (handleMessage st c (.auth u) true).2
        (.broadcast (.user_online u)) = 1 ∧
    countEff (handleMessage st c (.auth u) true).2
        (.broadcast (.user_offline u)) = 0 ∧
    countEff (handleMessage st c (.auth u) true).2
        (.storeSetOnline u true) = 1 ∧
    countEff (handleMessage st c (.auth u) true).2
        (.storeSetOnline u false) = 0 ∧
    (handleMessage st c (.auth u) true).1.connectedUsers
        = mapSet st.connectedUsers u c ∧
    (handleMessage st c (.auth u) true).1.openConns = st.openConns := by
  refine ⟨?_, ?_, ?_, ?_, ?_, ?_⟩ <;>
    simp only [handleMessage, hu, ne_eq, not_false_iff, if_true]
  · rw [countEff_cons, if_neg (by simp), countEff_broadcastToAll_self]
  · rw [countEff_cons, if_neg (by simp),
      countEff_broadcastToAll _ _ _ (by simp) (fun c' h => Effect.noConfusion h)]
  · rw [countEff_cons, if_pos rfl,
      countEff_broadcastToAll _ _ _ (by simp) (fun c' h => Effect.noConfusion h)]
  · rw [countEff_cons, if_neg (by simp),
      countEff_broadcastToAll _ _ _ (by simp) (fun c' h => Effect.noConfusion h)]

theorem runAuths_counts (u : String) (c : Nat) (hu : u ≠ "") : ∀ (k : Nat)
    (st : ServerState), st.connectedUsers = [(u, c)] →
    (runAuths st c u k).1.connectedUsers = [(u, c)] ∧
    countEff (runAuths st c u k).2 (.broadcast (.user_online u)) = k ∧
    countEff (runAuths st c u k).2 (.broadcast (.user_offline u)) = 0 ∧
    countEff (runAuths st c u k).2 (.storeSetOnline u true) = k ∧
    countEff (runAuths st c u k).2 (.storeSetOnline u false) = 0 := by
  intro k
  induction k with
  | zero => intro st hcu; exact ⟨hcu, rfl, rfl, rfl, rfl⟩
  | succ k ih =>
      intro st hcu
      have hstep := auth_effects_counts st c u hu
      have hcu' : (handleMessage st c (.auth u) true).1.connectedUsers
          = [(u, c)] := by
        rw [hstep.2.2.2.2.1, hcu]
        simp [mapSet]
      have hrest := ih (handleMessage st c (.auth u) true).1 hcu'
      refine ⟨hrest.1, ?_, ?_, ?_, ?_⟩ <;>
        simp only [runAuths, countEff_append]
      · rw [hstep.1, hrest.2.1]; omega
      · rw [hstep.2.1, hrest.2.2.1]
      · rw [hstep.2.2.1, hrest.2.2.2.1]; omega
      · rw [hstep.2.2.2.1, hrest.2.2.2.2]

theorem close_from_singleton (st : ServerState) (c : Nat) (u : String)
    (hcu : st.connectedUsers = [(u, c)]) :
    countEff (handleClose st c true).2 (.broadcast (.user_offline u)) = 1 ∧
    countEff (handleClose st c true).2 (.broadcast (.user_online u)) = 0 ∧
    countEff (handleClose st c true).2 (.storeSetOnline u false) = 1 ∧
    countEff (handleClose st c true).2 (.storeSetOnline u true) = 0 := by
  have heff : (handleClose st c true).2
      = [Effect.storeSetOnline u false, Effect.broadcast (.user_offline u)] := by
    simp [handleClose, hcu, findConnUser, mapDelete, broadcastToAll]
  refine ⟨?_, ?_, ?_, ?_⟩ <;>
    rw [heff, countEff_cons, countEff_cons] <;>
    simp [countEff]

/-- C2 amended: starting from an empty registry, `k + 1` auth handshakes
for identity `u` on connection `c` followed by that connection's close
produce exactly `k + 1` `user_online` broadcasts (each handshake
re-emits one; the core does not deduplicate) and no `user_offline`
broadcast during the auth phase, then the close produces exactly one
`user_offline` broadcast and no further `user_online`; the durable
side-effects match: `k + 1` online store writes, then exactly one
offline store write. With a single handshake (`k = 0`) this is exactly
one `user_online` then exactly one `user_offline`. -/
theorem auth_close_presence_counts (store0 : StoreState) (conns : List Nat)
    (c : Nat) (u : String) (k : Nat) (hu : u ≠ "") :
    countEff (authCloseScenario store0 conns c u (k + 1)).1.2
        (.broadcast (.user_online u)) = k + 1 ∧
    countEff (authCloseScenario store0 conns c u (k + 1)).1.2
        (.broadcast (.user_offline u)) = 0 ∧
    countEff (authCloseScenario store0 conns c u (k + 1)).2.2
        (.broadcast (.user_offline u)) = 1 ∧
    countEff (authCloseScenario store0 conns c u (k + 1)).2.2
        (.broadcast (.user_online u)) = 0 ∧
    countEff (authCloseScenario store0 conns c u (k + 1)).1.2
        (.storeSetOnline u true) = k + 1 ∧
    countEff (authCloseScenario store0 conns c u (k + 1)).2.2
        (.storeSetOnline u false) = 1 := by
  have hstep := auth_effects_counts ⟨[], conns, store0⟩ c u hu
  have hcu' : (handleMessage ⟨[], conns, store0⟩ c (.auth u) true).1.connectedUsers
      = [(u, c)] := by
    rw [hstep.2.2.2.2.1]; simp [mapSet]
  have hrest := runAuths_counts u c hu k
    (handleMessage ⟨[], conns, store0⟩ c (.auth u) true).1 hcu'
  have hclose := close_from_singleton
    (runAuths (handleMessage ⟨[], conns, store0⟩ c (.auth u) true).1 c u k).1
    c u hrest.1
  refine ⟨?_, ?_, ?_, ?_, ?_, ?_⟩ <;>
    simp only [authCloseScenario, runAuths, countEff_append]
  · rw [hstep.1, hrest.2.1]; omega
  · rw [hstep.2.1, hrest.2.2.1]
  · exact hclose.1
  · exact hclose.2.1
  · rw [hstep.2.2.1, hrest.2.2.2.1]; omega
  · exact hclose.2.2.1

/-- Witness for `auth_close_presence_counts`: a single auth for "U" on
connection 0 then close gives exactly one `user_online` and then one
`user_offline` broadcast. -/
theorem auth_close_presence_counts_witness :
    countEff (authCloseScenario ⟨[], [("U", ⟨false, 0⟩)], 0, 0⟩ [0] 0 "U" 1).1.2
        (.broadcast (.user_online "U")) = 1 ∧
    countEff (authCloseScenario ⟨[], [("U", ⟨false, 0⟩)], 0, 0⟩ [0] 0 "U" 1).2.2
        (.broadcast (.user_offline "U")) = 1 :=
  ⟨(auth_close_presence_counts ⟨[], [("U", ⟨false, 0⟩)], 0, 0⟩ [0] 0 "U" 0
      (by decide)).1,
   (auth_close_presence_counts ⟨[], [("U", ⟨false, 0⟩)], 0, 0⟩ [0] 0 "U" 0
      (by decide)).2.2.1⟩

/-- C2 counterexample: a duplicated auth handshake for "U" followed by
disconnect produces TWO `user_online` broadcasts (and two online store
writes), not exactly one — the core re-emits `user_online` on every
handshake. -/
theorem duplicate_auth_double_online_broadcast :
    countEff (authCloseScenario ⟨[], [("U", ⟨false, 0⟩)], 0, 0⟩ [0] 0 "U" 2).1.2
        (.broadcast (.user_online "U")) = 2 ∧
    countEff (authCloseScenario ⟨[], [("U", ⟨false, 0⟩)], 0, 0⟩ [0] 0 "U" 2).1.2
        (.storeSetOnline "U" true) = 2 ∧
    countEff (authCloseScenario ⟨[], [("U", ⟨false, 0⟩)], 0, 0⟩ [0] 0 "U" 2).2.2
        (.broadcast (.user_offline "U")) = 1 := by
  decide

/-! ## C6: conversation retrieval is ordered, symmetric, limit-50 -/

/-- C6: `getMessagesBetweenUsers` defaults its limit to 50; it is
symmetric in its two user arguments; its result is sorted ascending by
`createdAt`; every returned message is one exchanged between the two
users (in either direction); at most `limit` messages are returned; and
whenever at most `limit` such messages exist, every message between the
two users is returned. -/
theorem getMessages_between_spec (st : StoreState) (a b : String) (limit : Nat) :
    getMessagesBetweenUsers st a b = getMessagesBetweenUsersLimit st a b 50 ∧
    getMessagesBetweenUsersLimit st a b limit
        = getMessagesBetweenUsersLimit st b a limit ∧
    List.Sorted msgLE (getMessagesBetweenUsersLimit st a b limit) ∧
    (∀ m ∈ getMessagesBetweenUsersLimit st a b limit,
        betweenPred a b m = true) ∧
    (getMessagesBetweenUsersLimit st a b limit).length ≤ limit ∧
    ((st.messages.filter (betweenPred a b)).length ≤ limit →
        ∀ m ∈ st.messages, betweenPred a b m = true →
          m ∈ getMessagesBetweenUsersLimit st a b limit) := by
  refine ⟨rfl, ?_, ?_, ?_, ?_, ?_⟩
  · unfold getMessagesBetweenUsersLimit
    have hpred : ∀ m ∈ st.messages, betweenPred a b m = betweenPred b a m := by
      intro m _
      unfold betweenPred
      exact Bool.or_comm _ _
    rw [List.filter_congr hpred]
  · exact List.Pairwise.sublist (List.take_sublist _ _)
      (List.sorted_insertionSort msgLE _)
  · intro m hm
    have hm' : m ∈ List.insertionSort msgLE (st.messages.filter (betweenPred a b)) :=
      List.mem_of_mem_take hm
    rw [List.mem_insertionSort] at hm'
    exact (List.mem_filter.mp hm').2
  · unfold getMessagesBetweenUsersLimit
    rw [List.length_take]
    exact Nat.min_le_left _ _
  · intro hlen m hmem hpred
    unfold getMessagesBetweenUsersLimit
    have hlen' : (List.insertionSort msgLE
        (st.messages.filter (betweenPred a b))).length ≤ limit := by
      rw [List.length_insertionSort]; exact hlen
    rw [List.take_of_length_le hlen', List.mem_insertionSort, List.mem_filter]
    exact ⟨hmem, hpred⟩

/-- Witness for `getMessages_between_spec`: in a store holding an A→B
and a B→A message, the B→A message is returned by a query issued as
(A, B) — both directions, within the default limit. -/
theorem getMessages_between_spec_witness :
    (⟨1, "B", "A", "yo", "text", none, false, 1⟩ : StoredMessage)
      ∈ getMessagesBetweenUsersLimit
          ⟨[⟨0, "A", "B", "hi", "text", none, false, 0⟩,
            ⟨1, "B", "A", "yo", "text", none, false, 1⟩], [], 2, 2⟩
          "A" "B" 50 :=
  (getMessages_between_spec
      ⟨[⟨0, "A", "B", "hi", "text", none, false, 0⟩,
        ⟨1, "B", "A", "yo", "text", none, false, 1⟩], [], 2, 2⟩
      "A" "B" 50).2.2.2.2.2 (by decide)
    ⟨1, "B", "A", "yo", "text", none, false, 1⟩ (by decide) (by decide)

/-! ## C7: markMessagesAsRead is exact, frame-preserving, idempotent -/

/-- C7: `markMessagesAsRead B A` keeps the message list's length and
positions; any message at position `i` that is not an unread B→A message
is left exactly as it was; any B→A message at position `i` ends up read
with all other fields unchanged; the rest of the store (users, id
counter, clock) is untouched; and the operation is idempotent: applying
it twice equals applying it once. -/
theorem markRead_spec (st : StoreState) (B A : String) :
    (markMessagesAsRead st B A).messages.length = st.messages.length ∧
    (∀ (i : Nat) (m : StoredMessage), st.messages[i]? = some m →
        ¬(m.senderId = B ∧ m.receiverId = A ∧ m.isRead = false) →
        (markMessagesAsRead st B A).messages[i]? = some m) ∧
    (∀ (i : Nat) (m : StoredMessage), st.messages[i]? = some m →
        m.senderId = B → m.receiverId = A →
        (markMessagesAsRead st B A).messages[i]?
          = some { m with isRead := true }) ∧
    (markMessagesAsRead st B A).users = st.users ∧
    (markMessagesAsRead st B A).nextId = st.nextId ∧
    (markMessagesAsRead st B A).now = st.now ∧
    markMessagesAsRead (markMessagesAsRead st B A) B A
        = markMessagesAsRead st B A := by
  refine ⟨?_, ?_, ?_, rfl, rfl, rfl, ?_⟩
  · simp [markMessagesAsRead]
  · intro i m hi hnot
    simp only [markMessagesAsRead, List.getElem?_map, hi, Option.map_some']
    rw [if_neg hnot]
  · intro i m hi hs hr
    simp only [markMessagesAsRead, List.getElem?_map, hi, Option.map_some']
    by_cases hread : m.isRead = false
    · rw [if_pos ⟨hs, hr, hread⟩]
    · rw [if_neg (fun h => hread h.2.2)]
      cases m
      simp_all
  · simp only [markMessagesAsRead, List.map_map]
    congr 1
    refine List.map_congr_left ?_
    intro m _
    simp only [Function.comp_apply]
    by_cases h : m.senderId = B ∧ m.receiverId = A ∧ m.isRead = false
    · rw [if_pos h, if_neg]
      intro h'
      simp at h'
    · rw [if_neg h, if_neg h]

/-- Witness for `markRead_spec`: a concrete unread B→A message at
position 0 becomes read. -/
theorem markRead_spec_witness :
    (markMessagesAsRead
        ⟨[⟨0, "B", "A", "hi", "text", none, false, 0⟩], [], 1, 1⟩
        "B" "A").messages[0]?
      = some ⟨0, "B", "A", "hi", "text", none, true, 0⟩ :=
  (markRead_spec ⟨[⟨0, "B", "A", "hi", "text", none, false, 0⟩], [], 1, 1⟩
      "B" "A").2.2.1 0 ⟨0, "B", "A", "hi", "text", none, false, 0⟩
    (by decide) (by decide) (by decide)
